import Mathlib

/-!
Verification of the PolicyKit policy-engine model layer
(`policyengine/models.py`) via a shallow embedding in Lean 4.

The embedding translates the data model and the lifecycle methods of
the source: `DataStore.get/set/remove`, `Proposal` and its vote-tally
queries, `pass_action`/`fail_action`, the permission-gated `save`
flows of `ConstitutionAction` and `PlatformAction`, the per-kind
`execute` methods of the constitution actions, and bundle execution.
Stateful Django operations become explicit state passing; a Python
exception escaping a method is an explicit error value; the event
trace of a `save` records entity creation, proposal writes, effect
execution and policy-engine invocations.
-/

set_option autoImplicit false

namespace PolicyKit

/-- Proposal status values (`Proposal.PROPOSED/FAILED/PASSED`). -/
inductive Status where
  | proposed
  | failed
  | passed
deriving DecidableEq, Repr

/-- Python exceptions that can escape the modelled methods. -/
inductive PyError where
  | attributeError
  | assertionError
deriving DecidableEq, Repr

/-! ## DataStore

`DataStore.data_store` is a JSON-encoded Python dict.  We model the
decoded dict as an association list of string keys and JSON values,
exactly what `json.loads`/`json.dumps` round-trip.  Python's `None`
(the decoding of JSON `null`, and the default of `dict.get`/`dict.pop`)
is `JValue.null`. -/

/-- A JSON value, as stored in `DataStore.data_store`. -/
inductive JValue where
  | null
  | bool (b : Bool)
  | num (n : Int)
  | str (s : String)
  | arr (elems : List JValue)
  | obj (fields : List (String × JValue))

/-- Python truthiness of a decoded JSON value (`if not res`). -/
def JValue.truthy : JValue → Bool
  | .null => false
  | .bool b => b
  | .num n => n != 0
  | .str s => s != ""
  | .arr elems => !elems.isEmpty
  | .obj fields => !fields.isEmpty

/-- The decoded `data_store` dict of a `DataStore` row. -/
structure DataStore where
  store : List (String × JValue)

/-- A fresh `DataStore` (`data_store` is the empty string, decoded to `{}`). -/
def DataStore.empty : DataStore := ⟨[]⟩

/-- Python `obj.get(key, None)` on the decoded dict: the value under
`key`, or `None` (JSON `null`) when absent.  Embeds `DataStore.get`. -/
def DataStore.get (ds : DataStore) (key : String) : JValue :=
  match ds.store.find? (fun p => p.1 == key) with
  | some p => p.2
  | none => .null

/-- Whether `key` is present in the decoded dict. -/
def DataStore.hasKey (ds : DataStore) (key : String) : Bool :=
  ds.store.any (fun p => p.1 == key)

/-- Embeds `DataStore.set`: `obj[key] = value` (replace in place when the
key exists, append otherwise), re-serialize, return `True`. -/
def DataStore.set (ds : DataStore) (key : String) (value : JValue) : DataStore × Bool :=
  if ds.hasKey key then
    (⟨ds.store.map (fun p => if p.1 == key then (p.1, value) else p)⟩, true)
  else
    (⟨ds.store ++ [(key, value)]⟩, true)

/-- Python `obj.pop(key, None)` on the decoded dict: the removed value
(`None` when the key is absent) together with the dict without `key`.
A decoded JSON dict has at most one entry per key, so removing every
entry under `key` is the single-entry removal `pop` performs. -/
def dictPop (l : List (String × JValue)) (key : String) :
    JValue × List (String × JValue) :=
  match l.find? (fun p => p.1 == key) with
  | some p => (p.2, l.filter (fun q => q.1 != key))
  | none => (.null, l.filter (fun q => q.1 != key))

/-- Embeds `DataStore.remove`: `res = obj.pop(key, None)`, re-serialize,
then `if not res: return False` / `return True`. -/
def DataStore.remove (ds : DataStore) (key : String) : DataStore × Bool :=
  let res := (dictPop ds.store key).1
  (⟨(dictPop ds.store key).2⟩, if !res.truthy then false else true)

/-! ## Proposal and votes -/

/-- The `Proposal` row: author and approval status (the vote-tally
queries identify the proposal by its primary key `pk`). -/
structure Proposal where
  pk : Nat
  author : Option String
  status : Status
deriving DecidableEq, Repr

/-- A `BooleanVote` row: voter (by username), proposal (by pk), and the
nullable `boolean_value` field. -/
structure BooleanVote where
  user : String
  proposal : Nat
  boolean_value : Option Bool
deriving DecidableEq, Repr

/-- A `NumberVote` row: voter, proposal, and the nullable `number_value`. -/
structure NumberVote where
  user : String
  proposal : Nat
  number_value : Option Int
deriving DecidableEq, Repr

/-- Embeds `Proposal.get_all_boolean_votes(self, users=None)`:
`if users:` (Python truthiness — `None` and the empty list both skip the
filter) then filter by `proposal=self, user__in=users`, else by
`proposal=self` only.  `db` is the `BooleanVote` table. -/
def Proposal.get_all_boolean_votes (self : Proposal) (db : List BooleanVote)
    (users : Option (List String)) : List BooleanVote :=
  match users with
  | some us =>
    if !us.isEmpty then
      db.filter (fun v => v.proposal == self.pk && us.contains v.user)
    else
      db.filter (fun v => v.proposal == self.pk)
  | none => db.filter (fun v => v.proposal == self.pk)

/-- Embeds `Proposal.get_yes_votes`: as above with `boolean_value=True`. -/
def Proposal.get_yes_votes (self : Proposal) (db : List BooleanVote)
    (users : Option (List String)) : List BooleanVote :=
  match users with
  | some us =>
    if !us.isEmpty then
      db.filter (fun v => v.boolean_value == some true && v.proposal == self.pk && us.contains v.user)
    else
      db.filter (fun v => v.boolean_value == some true && v.proposal == self.pk)
  | none => db.filter (fun v => v.boolean_value == some true && v.proposal == self.pk)

/-- Embeds `Proposal.get_no_votes`: as above with `boolean_value=False`. -/
def Proposal.get_no_votes (self : Proposal) (db : List BooleanVote)
    (users : Option (List String)) : List BooleanVote :=
  match users with
  | some us =>
    if !us.isEmpty then
      db.filter (fun v => v.boolean_value == some false && v.proposal == self.pk && us.contains v.user)
    else
      db.filter (fun v => v.boolean_value == some false && v.proposal == self.pk)
  | none => db.filter (fun v => v.boolean_value == some false && v.proposal == self.pk)

/-- Embeds `Proposal.get_all_number_votes`. -/
def Proposal.get_all_number_votes (self : Proposal) (db : List NumberVote)
    (users : Option (List String)) : List NumberVote :=
  match users with
  | some us =>
    if !us.isEmpty then
      db.filter (fun v => v.proposal == self.pk && us.contains v.user)
    else
      db.filter (fun v => v.proposal == self.pk)
  | none => db.filter (fun v => v.proposal == self.pk)

/-- Embeds `Proposal.get_one_number_votes(value, users=None)`:
filter by `number_value=value` as well. -/
def Proposal.get_one_number_votes (self : Proposal) (db : List NumberVote)
    (value : Int) (users : Option (List String)) : List NumberVote :=
  match users with
  | some us =>
    if !us.isEmpty then
      db.filter (fun v => v.number_value == some value && v.proposal == self.pk && us.contains v.user)
    else
      db.filter (fun v => v.number_value == some value && v.proposal == self.pk)
  | none => db.filter (fun v => v.number_value == some value && v.proposal == self.pk)

/-! ## pass_action / fail_action

Each of `ConstitutionAction`, `PlatformAction`, `ConstitutionActionBundle`
and `PlatformActionBundle` defines `pass_action`/`fail_action` that assign
`self.proposal.status` unconditionally and save the proposal (the
`action.send` activity-stream call is notification transport, out of
model).  We embed the status assignment on the owned `Proposal`. -/

def ConstitutionAction.pass_action (p : Proposal) : Proposal :=
  { p with status := Status.passed }

def ConstitutionAction.fail_action (p : Proposal) : Proposal :=
  { p with status := Status.failed }

def PlatformAction.pass_action (p : Proposal) : Proposal :=
  { p with status := Status.passed }

def PlatformAction.fail_action (p : Proposal) : Proposal :=
  { p with status := Status.failed }

def ConstitutionActionBundle.pass_action (p : Proposal) : Proposal :=
  { p with status := Status.passed }

def ConstitutionActionBundle.fail_action (p : Proposal) : Proposal :=
  { p with status := Status.failed }

def PlatformActionBundle.pass_action (p : Proposal) : Proposal :=
  { p with status := Status.passed }

def PlatformActionBundle.fail_action (p : Proposal) : Proposal :=
  { p with status := Status.failed }

/-! ## Vote casting

Vote casting itself is not part of `models.py` (it lives in the view /
platform-integration layer); only the `UserVote`/`BooleanVote` rows are
defined here.  We model the casting operation from the spec. -/

/-- Modelled from the spec: the vote-casting operation (`castVote(proposal,
member, value)`, spec section 4.3: "records or replaces that member's
vote").  The operation itself is not in `models.py`; only the
`BooleanVote` row type is.  Casting replaces the member's existing vote on
that proposal when one exists, and appends a fresh row otherwise. -/
def castVote (db : List BooleanVote) (p : Nat) (u : String) (value : Bool) :
    List BooleanVote :=
  if db.any (fun v => v.proposal == p && v.user == u) then
    db.map (fun v =>
      if v.proposal == p && v.user == u then { v with boolean_value := some value } else v)
  else
    db ++ [{ user := u, proposal := p, boolean_value := some value }]

/-- Number of `BooleanVote` rows a member holds on a proposal. -/
def voteCount (db : List BooleanVote) (p : Nat) (u : String) : Nat :=
  (db.filter (fun v => v.proposal == p && v.user == u)).length

/-! ## Community state and the constitution action kinds

The meta-governance `execute` methods mutate the community's own
configuration (`CommunityDoc`, `CommunityRole`, policy rows).  A Django
foreign key declared `SET_NULL` is `none` once its target row has been
deleted; an in-memory object whose row was already deleted has `pk = none`
(Django's `Model.delete` raises `AssertionError` on it, while attribute
access on a `None` reference raises `AttributeError`). -/

/-- A `CommunityDoc` row. -/
structure CommunityDoc where
  pk : Nat
  name : String
  text : String
deriving DecidableEq, Repr

/-- A `CommunityRole` row (`permissions` as codename strings). -/
structure CommunityRole where
  pk : Nat
  role_name : String
  name : String
  description : String
  permissions : List String
deriving DecidableEq, Repr

/-- An in-memory reference to a persisted object: its `pk` is `none`
when the underlying row has already been deleted. -/
structure ObjRef where
  pk : Option Nat
deriving DecidableEq, Repr

/-- The community's own configuration mutated by constitution actions.
Policy rows are tracked by primary key.  `platform`/`community_name`
feed the role name built by `PolicykitAddRole.execute`. -/
structure CommunityState where
  platform : String
  community_name : String
  docs : List CommunityDoc
  roles : List CommunityRole
  platformPolicies : List Nat
  constitutionPolicies : List Nat
  nextPk : Nat
deriving DecidableEq, Repr

/-- Events observable during a `save`/`execute` run, in program order. -/
inductive Event where
  | dataStoreCreate
  | proposalCreate (st : Status)
  | proposalSetStatus (st : Status)
  | effect
  | hookRun (policy : String) (hook : String)
  | policyEvaluation (policy : String)
deriving DecidableEq, Repr

/-- The constitution action kinds relevant to the claims, with their
kind-specific payload (the foreign-key payloads are `Option ObjRef`:
`none` models a `SET_NULL`-ed reference). -/
inductive CActionKind where
  | addCommunityDoc (name text : String)
  | deleteCommunityDoc (doc : Option ObjRef)
  | addRole (name description : String) (permissions : List String)
  | deleteRole (role : Option ObjRef)
  | removePlatformPolicy (policy : Option ObjRef)
  | removeConstitutionPolicy (policy : Option ObjRef)
deriving DecidableEq, Repr

/-- Embeds `PolicykitAddRole.execute`: `CommunityRole.objects.get_or_create`
on (role_name, group name, description), add each payload permission,
attach to the community, save. -/
def addRoleExec (nm desc : String) (perms : List String) (s : CommunityState) :
    CommunityState :=
  let fullName := s.platform ++ ": " ++ s.community_name ++ ": " ++ nm
  match s.roles.find? (fun r => r.role_name == nm && r.name == fullName && r.description == desc) with
  | some r =>
    { s with roles := s.roles.map (fun x =>
        if x.pk == r.pk then
          { x with permissions := x.permissions ++ perms.filter (fun p => !x.permissions.contains p) }
        else x) }
  | none =>
    { s with
      roles := s.roles ++
        [{ pk := s.nextPk, role_name := nm, name := fullName, description := desc,
           permissions := perms.eraseDups }],
      nextPk := s.nextPk + 1 }

/-- Runs a constitution action's `execute` method: returns the new
community state, the events performed, and the Python exception that
escaped, if any.  Each kind's `execute` ends with `self.pass_action()`;
`PolicykitDeleteRole.execute` alone wraps its delete in
`try/except AssertionError`, so a stale reference is a benign no-op
there, while the document- and policy-removal kinds let the exception
escape before `pass_action` is reached. -/
def runCAction : CActionKind → CommunityState → CommunityState × List Event × Option PyError
  | .addCommunityDoc nm tx, s =>
    let s' := match s.docs.find? (fun d => d.name == nm && d.text == tx) with
      | some _ => s
      | none => { s with docs := s.docs ++ [{ pk := s.nextPk, name := nm, text := tx }],
                         nextPk := s.nextPk + 1 }
    (s', [Event.effect, Event.proposalSetStatus Status.passed], none)
  | .deleteCommunityDoc ref, s =>
    match ref with
    | none => (s, [], some PyError.attributeError)
    | some r =>
      match r.pk with
      | none => (s, [], some PyError.assertionError)
      | some n =>
        ({ s with docs := s.docs.filter (fun d => d.pk != n) },
         [Event.effect, Event.proposalSetStatus Status.passed], none)
  | .addRole nm desc perms, s =>
    (addRoleExec nm desc perms s,
     [Event.effect, Event.proposalSetStatus Status.passed], none)
  | .deleteRole ref, s =>
    match ref with
    | none => (s, [], some PyError.attributeError)
    | some r =>
      match r.pk with
      | none => (s, [Event.proposalSetStatus Status.passed], none)
      | some n =>
        ({ s with roles := s.roles.filter (fun x => x.pk != n) },
         [Event.effect, Event.proposalSetStatus Status.passed], none)
  | .removePlatformPolicy ref, s =>
    match ref with
    | none => (s, [], some PyError.attributeError)
    | some r =>
      match r.pk with
      | none => (s, [], some PyError.assertionError)
      | some n =>
        ({ s with platformPolicies := s.platformPolicies.filter (fun x => x != n) },
         [Event.effect, Event.proposalSetStatus Status.passed], none)
  | .removeConstitutionPolicy ref, s =>
    match ref with
    | none => (s, [], some PyError.attributeError)
    | some r =>
      match r.pk with
      | none => (s, [], some PyError.assertionError)
      | some n =>
        ({ s with constitutionPolicies := s.constitutionPolicies.filter (fun x => x != n) },
         [Event.effect, Event.proposalSetStatus Status.passed], none)

/-! ## Bundles -/

/-- `bundle_type` of an action bundle. -/
inductive BundleType where
  | election
  | bundle
deriving DecidableEq, Repr

/-- A constitution action inside a bundle, with its own proposal. -/
structure BundledCAction where
  kind : CActionKind
  proposal : Proposal
deriving DecidableEq, Repr

/-- The `ConstitutionActionBundle` row. -/
structure CActionBundle where
  bundle_type : BundleType
  bundled_actions : List BundledCAction
deriving DecidableEq, Repr

/-- The loop body of `ConstitutionActionBundle.execute`: for each bundled
action run `action.execute()` then `action.pass_action()`; an exception
escaping a contained `execute` aborts the loop, leaving that action and
the remaining ones untouched (earlier ones keep their committed state). -/
def runCBundleActions : List BundledCAction → CommunityState →
    CommunityState × List BundledCAction × Option PyError
  | [], s => (s, [], none)
  | a :: rest, s =>
    match runCAction a.kind s with
    | (s', _, some e) => (s', a :: rest, some e)
    | (s', _, none) =>
      let a' := { a with proposal := ConstitutionActionBundle.pass_action a.proposal }
      match runCBundleActions rest s' with
      | (s'', rest', err) => (s'', a' :: rest', err)

/-- Embeds `ConstitutionActionBundle.execute`: the loop runs only when
`bundle_type == BUNDLE`; an `election` bundle does nothing. -/
def CActionBundle.execute (b : CActionBundle) (s : CommunityState) :
    CommunityState × List BundledCAction × Option PyError :=
  match b.bundle_type with
  | .bundle => runCBundleActions b.bundled_actions s
  | .election => (s, b.bundled_actions, none)

/-- A platform action inside a bundle (its effect is delegated to the
external platform adapter, so only the proposal matters here). -/
structure BundledPAction where
  proposal : Proposal
deriving DecidableEq, Repr

/-- The `PlatformActionBundle` row. -/
structure PActionBundle where
  bundle_type : BundleType
  bundled_actions : List BundledPAction
deriving DecidableEq, Repr

/-- Embeds `PlatformActionBundle.execute`: when `bundle_type == BUNDLE`,
for each bundled action call `community.execute_platform_action(action)`
(one `Event.effect`) then `action.pass_action()`; an `election` bundle
does nothing.  Returns the updated bundled actions and the event trace. -/
def PActionBundle.execute (b : PActionBundle) : List BundledPAction × List Event :=
  match b.bundle_type with
  | .bundle =>
    b.bundled_actions.foldl
      (fun acc a =>
        (acc.1 ++ [{ a with proposal := PlatformActionBundle.pass_action a.proposal }],
         acc.2 ++ [Event.effect]))
      ([], [])
  | .election => (b.bundled_actions, [])

/-! ## The permission-gated save flows

`ConstitutionAction.save` and `PlatformAction.save` run the permission
gate at creation time: the `add_<codename>` permission guards proposing,
the `can_execute_<codename>` permission bypasses review.  The policy
engine entry point `execute_policy` is imported from
`policyengine.views` and is not part of `models.py`; the save models are
therefore parametric in it: `execPolicy` yields the events an
`execute_policy(policy, action, is_first_evaluation=True)` call performs
(hook runs among them). -/

/-- A `CommunityUser` as the permission gate sees it: Django permission
codenames the user holds (directly or via roles). -/
structure CommunityUser where
  username : String
  perms : List String
deriving DecidableEq, Repr

/-- Embeds Django's `user.has_perm("app_label.codename")`. -/
def CommunityUser.has_perm (u : CommunityUser) (perm : String) : Bool :=
  u.perms.contains perm

/-- A policy row as the save flow sees it: its name and owning community
(the `objects.filter(community=...)` key). -/
structure PolicyRec where
  name : String
  community : Nat
deriving DecidableEq, Repr

/-- A `ConstitutionAction` row at save time.  `data` is the DataStore
primary key (`none` until one is created); `hasProposal` models
`hasattr(self, 'proposal')`; `usesReady`/`ready` model the subclasses
(`PolicykitAddRole` etc.) that override `shouldCreate` to return
`self.ready` instead of `not self.pk`. -/
structure ConstitutionActionRec where
  pk : Option Nat
  initiator : CommunityUser
  community : Nat
  action_codename : String
  is_bundled : Bool
  data : Option Nat
  hasProposal : Bool
  usesReady : Bool
  ready : Bool
  kind : CActionKind
deriving DecidableEq, Repr

/-- Embeds `shouldCreate`: `not self.pk` on the base class, `self.ready`
on the subclasses that override it. -/
def ConstitutionActionRec.shouldCreate (a : ConstitutionActionRec) : Bool :=
  if a.usesReady then a.ready else a.pk == none

/-- Embeds `ConstitutionAction.save`: on a new object, create the
DataStore if absent, then gate on `policyengine.add_<codename>`; with
propose permission create/mark the proposal `proposed` and, unless
bundled, either run `execute()` directly (with
`policyengine.can_execute_<codename>`) or hand every constitution policy
of the community to `execute_policy`; without propose permission create
the proposal directly as `failed`.  When `shouldCreate` is false but the
object is new, the proposal is also created `failed`.  Returns the new
community state, the event trace, and any exception that escaped. -/
def ConstitutionActionRec.save (a : ConstitutionActionRec)
    (policyDb : List PolicyRec) (execPolicy : PolicyRec → List Event)
    (s : CommunityState) : CommunityState × List Event × Option PyError :=
  if a.shouldCreate then
    let e1 : List Event := if a.data == none then [Event.dataStoreCreate] else []
    if a.initiator.has_perm ("policyengine.add_" ++ a.action_codename) then
      let e2 : List Event :=
        if a.hasProposal then [Event.proposalSetStatus Status.proposed]
        else [Event.proposalCreate Status.proposed]
      if !a.is_bundled then
        if a.initiator.has_perm ("policyengine.can_execute_" ++ a.action_codename) then
          match runCAction a.kind s with
          | (s', evs, err) => (s', e1 ++ e2 ++ evs, err)
        else
          (s,
           e1 ++ e2 ++
             ((policyDb.filter (fun p => p.community == a.community)).map
               (fun p => Event.policyEvaluation p.name :: execPolicy p)).flatten,
           none)
      else (s, e1 ++ e2, none)
    else (s, e1 ++ [Event.proposalCreate Status.failed], none)
  else
    if a.pk == none then (s, [Event.proposalCreate Status.failed], none)
    else (s, [], none)

/-- A `PlatformAction` row at save time. -/
structure PlatformActionRec where
  pk : Option Nat
  initiator : CommunityUser
  community : Nat
  action_codename : String
  is_bundled : Bool
  data : Option Nat
deriving DecidableEq, Repr

/-- Embeds `PlatformAction.execute`:
`community.execute_platform_action(self)` then `self.pass_action()`. -/
def PlatformActionRec.executeEvents : List Event :=
  [Event.effect, Event.proposalSetStatus Status.passed]

/-- Embeds `PlatformAction.save`: same gate as the constitution save,
except the new object test is `not self.pk` directly, the proposal is
always freshly created, the denied branch also persists the action row,
and policy evaluation draws from the platform policy pool. -/
def PlatformActionRec.save (a : PlatformActionRec)
    (policyDb : List PolicyRec) (execPolicy : PolicyRec → List Event) : List Event :=
  if a.pk == none then
    let e1 : List Event := if a.data == none then [Event.dataStoreCreate] else []
    if a.initiator.has_perm ("policyengine.add_" ++ a.action_codename) then
      let e2 : List Event := [Event.proposalCreate Status.proposed]
      if !a.is_bundled then
        if a.initiator.has_perm ("policyengine.can_execute_" ++ a.action_codename) then
          e1 ++ e2 ++ PlatformActionRec.executeEvents
        else
          e1 ++ e2 ++
            ((policyDb.filter (fun p => p.community == a.community)).map
              (fun p => Event.policyEvaluation p.name :: execPolicy p)).flatten
      else e1 ++ e2
    else e1 ++ [Event.proposalCreate Status.failed]
  else []

/-! ## Event trace observations -/

/-- The proposal status after a trace: the last proposal write wins. -/
def finalStatus (evs : List Event) : Option Status :=
  evs.foldl
    (fun acc e =>
      match e with
      | Event.proposalCreate st => some st
      | Event.proposalSetStatus st => some st
      | _ => acc)
    none

/-- Whether an event is a policy hook run. -/
def Event.isHook : Event → Bool
  | .hookRun _ _ => true
  | _ => false

/-- Whether an event is the action's real effect. -/
def Event.isEffect : Event → Bool
  | .effect => true
  | _ => false

/-- Whether an event is an `execute_policy` invocation. -/
def Event.isPolicyEval : Event → Bool
  | .policyEvaluation _ => true
  | _ => false

/-- Whether an event writes the proposal's status. -/
def Event.isProposalWrite : Event → Bool
  | .proposalCreate _ => true
  | .proposalSetStatus _ => true
  | _ => false

/-- A trace that invokes no policy hook, runs no real effect and never
enters the policy engine. -/
def quietTrace (evs : List Event) : Bool :=
  evs.all (fun e => !(e.isHook || e.isEffect || e.isPolicyEval))

/-- Number of real-effect executions in a trace. -/
def effectCount (evs : List Event) : Nat :=
  (evs.filter Event.isEffect).length

/-- A trace that invokes no policy hook and never enters the policy
engine (effects allowed). -/
def noPolicyTrace (evs : List Event) : Bool :=
  evs.all (fun e => !(e.isHook || e.isPolicyEval))

/-! ## Concrete instances used by counterexamples and witnesses -/

/-- A small community with no entities yet. -/
def emptyCommunity : CommunityState :=
  { platform := "slack", community_name := "test", docs := [], roles := [],
    platformPolicies := [], constitutionPolicies := [], nextPk := 1 }

/-- A proposal already in the terminal `passed` state. -/
def examplePassedProposal : Proposal :=
  { pk := 0, author := none, status := Status.passed }

/-- A fresh add-document constitution action whose initiator holds no
permission at all. -/
def deniedCA : ConstitutionActionRec :=
  { pk := none,
    initiator := { username := "bob", perms := [] },
    community := 0, action_codename := "policykitaddcommunitydoc",
    is_bundled := false, data := none, hasProposal := false,
    usesReady := false, ready := false,
    kind := CActionKind.addCommunityDoc "guide" "welcome" }

/-- A fresh platform action whose initiator holds no permission. -/
def deniedPA : PlatformActionRec :=
  { pk := none,
    initiator := { username := "bob", perms := [] },
    community := 0, action_codename := "slackpostmessage",
    is_bundled := false, data := none }

/-- A fresh delete-document constitution action with a `SET_NULL`-ed
document reference, initiated by a user holding both the propose and the
bypass permission for the kind. -/
def bypassDeleteDocCA : ConstitutionActionRec :=
  { pk := none,
    initiator :=
      { username := "alice",
        perms := ["policyengine.add_policykitdeletecommunitydoc",
                  "policyengine.can_execute_policykitdeletecommunitydoc"] },
    community := 0, action_codename := "policykitdeletecommunitydoc",
    is_bundled := false, data := none, hasProposal := false,
    usesReady := false, ready := false,
    kind := CActionKind.deleteCommunityDoc none }

/-- A fresh add-role constitution action (`ready = true`) whose initiator
holds both the propose and the bypass permission. -/
def bypassAddRoleCA : ConstitutionActionRec :=
  { pk := none,
    initiator :=
      { username := "alice",
        perms := ["policyengine.add_policykitaddrole",
                  "policyengine.can_execute_policykitaddrole"] },
    community := 0, action_codename := "policykitaddrole",
    is_bundled := false, data := none, hasProposal := false,
    usesReady := true, ready := true,
    kind := CActionKind.addRole "mod" "moderators" ["policyengine.add_policykitaddcommunitydoc"] }

/-- A fresh platform action whose initiator holds both the propose and
the bypass permission. -/
def bypassPA : PlatformActionRec :=
  { pk := none,
    initiator :=
      { username := "alice",
        perms := ["policyengine.add_slackpostmessage",
                  "policyengine.can_execute_slackpostmessage"] },
    community := 0, action_codename := "slackpostmessage",
    is_bundled := false, data := none }

/-- A plain bundle containing a single delete-document action whose
document reference is `SET_NULL`-ed. -/
def badBundle : CActionBundle :=
  { bundle_type := BundleType.bundle,
    bundled_actions := [{ kind := CActionKind.deleteCommunityDoc none,
                          proposal := { pk := 1, author := none, status := Status.proposed } }] }

/-- A plain bundle of three add-role actions (the spec's scenario). -/
def threeRoleBundle : CActionBundle :=
  { bundle_type := BundleType.bundle,
    bundled_actions :=
      [{ kind := CActionKind.addRole "mod" "moderators" [],
         proposal := { pk := 1, author := none, status := Status.proposed } },
       { kind := CActionKind.addRole "editor" "editors" [],
         proposal := { pk := 2, author := none, status := Status.proposed } },
       { kind := CActionKind.addRole "greeter" "greeters" [],
         proposal := { pk := 3, author := none, status := Status.proposed } }] }

/-- An election bundle of one add-role action. -/
def electionBundle : CActionBundle :=
  { bundle_type := BundleType.election,
    bundled_actions :=
      [{ kind := CActionKind.addRole "mod" "moderators" [],
         proposal := { pk := 1, author := none, status := Status.proposed } }] }

/-- A plain platform bundle of two actions. -/
def platformBundle : PActionBundle :=
  { bundle_type := BundleType.bundle,
    bundled_actions :=
      [{ proposal := { pk := 4, author := none, status := Status.proposed } },
       { proposal := { pk := 5, author := none, status := Status.proposed } }] }

/-- An election platform bundle of one action. -/
def platformElection : PActionBundle :=
  { bundle_type := BundleType.election,
    bundled_actions := [{ proposal := { pk := 6, author := none, status := Status.proposed } }] }

/-- Two boolean votes on proposal 0 by different members. -/
def c7db : List BooleanVote :=
  [{ user := "alice", proposal := 0, boolean_value := some true },
   { user := "bob", proposal := 0, boolean_value := some true }]

/-- A single boolean vote on proposal 0. -/
def c8db : List BooleanVote :=
  [{ user := "alice", proposal := 0, boolean_value := some true }]

/-- A single number vote on proposal 0. -/
def c8ndb : List NumberVote :=
  [{ user := "alice", proposal := 0, number_value := some 5 }]

/-- The proposal the example votes refer to. -/
def c8prop : Proposal := { pk := 0, author := none, status := Status.proposed }

/-- The boolean vote row of `c8db`. -/
def c8v : BooleanVote := { user := "alice", proposal := 0, boolean_value := some true }

/-- The number vote row of `c8ndb`. -/
def c8w : NumberVote := { user := "alice", proposal := 0, number_value := some 5 }

/-- An example data store holding one truthy and one falsy value. -/
def exampleStore : DataStore :=
  ⟨[("count", JValue.num 0), ("label", JValue.str "x")]⟩

/-! ## Helper lemmas on the decoded dict -/

theorem find?_map_put (l : List (String × JValue)) (k : String) (v : JValue)
    (h : l.any (fun p => p.1 == k) = true) :
    (l.map (fun p => if p.1 == k then (p.1, v) else p)).find? (fun p => p.1 == k)
      = some (k, v) := by
  induction l with
  | nil => simp at h
  | cons a t ih =>
    by_cases ha : a.1 = k
    · subst ha
      simp [List.find?]
    · have ha' : (a.1 == k) = false := beq_eq_false_iff_ne.mpr ha
      simp only [List.map_cons, List.find?, ha', if_neg, Bool.false_eq_true, ite_false]
      simp only [List.any_cons, ha', Bool.false_or] at h
      exact ih h

theorem find?_append_new (l : List (String × JValue)) (k : String) (v : JValue)
    (h : l.any (fun p => p.1 == k) = false) :
    (l ++ [(k, v)]).find? (fun p => p.1 == k) = some (k, v) := by
  induction l with
  | nil => simp [List.find?]
  | cons a t ih =>
    simp only [List.any_cons, Bool.or_eq_false_iff] at h
    simp only [List.cons_append, List.find?, h.1]
    exact ih h.2

theorem find?_map_put_frame (l : List (String × JValue)) (k k' : String) (v : JValue)
    (hne : k' ≠ k) :
    (l.map (fun p => if p.1 == k then (p.1, v) else p)).find? (fun p => p.1 == k')
      = l.find? (fun p => p.1 == k') := by
  induction l with
  | nil => rfl
  | cons a t ih =>
    by_cases ha : a.1 = k
    · have ha1 : (a.1 == k) = true := beq_iff_eq.mpr ha
      have ha2 : (a.1 == k') = false := by
        refine beq_eq_false_iff_ne.mpr ?_
        rw [ha]
        exact fun hkk => hne hkk.symm
      simp only [List.map_cons, List.find?, ha1, if_pos, ha2]
      exact ih
    · have ha1 : (a.1 == k) = false := beq_eq_false_iff_ne.mpr ha
      simp only [List.map_cons, List.find?, ha1, Bool.false_eq_true, ite_false]
      cases hk' : (a.1 == k') with
      | true => rfl
      | false => exact ih

theorem find?_filter_removed (l : List (String × JValue)) (k : String) :
    (l.filter (fun q => q.1 != k)).find? (fun p => p.1 == k) = none := by
  refine List.find?_eq_none.mpr ?_
  intro x hx
  have hmem := List.mem_filter.mp hx
  simp only [bne_iff_ne, ne_eq] at hmem
  simp only [beq_iff_eq]
  exact hmem.2

theorem find?_filter_frame (l : List (String × JValue)) (k k' : String)
    (hne : k' ≠ k) :
    (l.filter (fun q => q.1 != k)).find? (fun p => p.1 == k')
      = l.find? (fun p => p.1 == k') := by
  induction l with
  | nil => rfl
  | cons a t ih =>
    by_cases ha : a.1 = k
    · have ha1 : (a.1 != k) = false := by
        simp [bne_iff_ne, ha]
      have ha2 : (a.1 == k') = false := by
        refine beq_eq_false_iff_ne.mpr ?_
        rw [ha]
        exact fun hkk => hne hkk.symm
      simp only [List.filter_cons, ha1, Bool.false_eq_true, ite_false, List.find?, ha2]
      exact ih
    · have ha1 : (a.1 != k) = true := by
        simp [bne_iff_ne, ha]
      simp only [List.filter_cons, ha1, if_pos, List.find?]
      cases hk' : (a.1 == k') with
      | true => rfl
      | false => exact ih

theorem find?_none_of_any_false (l : List (String × JValue)) (k : String)
    (h : l.any (fun p => p.1 == k) = false) :
    l.find? (fun p => p.1 == k) = none := by
  refine List.find?_eq_none.mpr ?_
  intro x hx
  intro hpx
  have hcontra : l.any (fun p => p.1 == k) = true := List.any_eq_true.mpr ⟨x, hx, hpx⟩
  rw [h] at hcontra
  exact Bool.false_ne_true hcontra

/-! ## Shape lemmas for the save flows -/

theorem csave_denied (a : ConstitutionActionRec) (policyDb : List PolicyRec)
    (execPolicy : PolicyRec → List Event) (s : CommunityState)
    (hsc : a.shouldCreate = true)
    (hp : a.initiator.has_perm ("policyengine.add_" ++ a.action_codename) = false) :
    a.save policyDb execPolicy s =
      (s, (if a.data == none then [Event.dataStoreCreate] else []) ++
          [Event.proposalCreate Status.failed], none) := by
  unfold ConstitutionActionRec.save
  simp [hsc, hp]

theorem csave_not_created (a : ConstitutionActionRec) (policyDb : List PolicyRec)
    (execPolicy : PolicyRec → List Event) (s : CommunityState)
    (hsc : a.shouldCreate = false) (hpk : a.pk = none) :
    a.save policyDb execPolicy s = (s, [Event.proposalCreate Status.failed], none) := by
  unfold ConstitutionActionRec.save
  simp [hsc, hpk]

theorem csave_bypass (a : ConstitutionActionRec) (policyDb : List PolicyRec)
    (execPolicy : PolicyRec → List Event) (s : CommunityState)
    (hsc : a.shouldCreate = true)
    (hp : a.initiator.has_perm ("policyengine.add_" ++ a.action_codename) = true)
    (hx : a.initiator.has_perm ("policyengine.can_execute_" ++ a.action_codename) = true)
    (hb : a.is_bundled = false) :
    a.save policyDb execPolicy s =
      ((runCAction a.kind s).1,
       (if a.data == none then [Event.dataStoreCreate] else []) ++
       ((if a.hasProposal then [Event.proposalSetStatus Status.proposed]
         else [Event.proposalCreate Status.proposed]) ++ (runCAction a.kind s).2.1),
       (runCAction a.kind s).2.2) := by
  unfold ConstitutionActionRec.save
  rcases hr : runCAction a.kind s with ⟨s1, evs, err⟩
  simp [hsc, hp, hx, hb, hr]

theorem csave_review (a : ConstitutionActionRec) (policyDb : List PolicyRec)
    (execPolicy : PolicyRec → List Event) (s : CommunityState)
    (hsc : a.shouldCreate = true)
    (hp : a.initiator.has_perm ("policyengine.add_" ++ a.action_codename) = true)
    (hx : a.initiator.has_perm ("policyengine.can_execute_" ++ a.action_codename) = false)
    (hb : a.is_bundled = false) :
    a.save policyDb execPolicy s =
      (s,
       (if a.data == none then [Event.dataStoreCreate] else []) ++
       ((if a.hasProposal then [Event.proposalSetStatus Status.proposed]
         else [Event.proposalCreate Status.proposed]) ++
        ((policyDb.filter (fun p => p.community == a.community)).map
          (fun p => Event.policyEvaluation p.name :: execPolicy p)).flatten),
       none) := by
  unfold ConstitutionActionRec.save
  simp [hsc, hp, hx, hb]

theorem csave_bundled (a : ConstitutionActionRec) (policyDb : List PolicyRec)
    (execPolicy : PolicyRec → List Event) (s : CommunityState)
    (hsc : a.shouldCreate = true)
    (hp : a.initiator.has_perm ("policyengine.add_" ++ a.action_codename) = true)
    (hb : a.is_bundled = true) :
    a.save policyDb execPolicy s =
      (s,
       (if a.data == none then [Event.dataStoreCreate] else []) ++
       (if a.hasProposal then [Event.proposalSetStatus Status.proposed]
        else [Event.proposalCreate Status.proposed]),
       none) := by
  unfold ConstitutionActionRec.save
  simp [hsc, hp, hb]

theorem psave_denied (pa : PlatformActionRec) (policyDb : List PolicyRec)
    (execPolicy : PolicyRec → List Event)
    (hpk : pa.pk = none)
    (hp : pa.initiator.has_perm ("policyengine.add_" ++ pa.action_codename) = false) :
    pa.save policyDb execPolicy =
      (if pa.data == none then [Event.dataStoreCreate] else []) ++
      [Event.proposalCreate Status.failed] := by
  unfold PlatformActionRec.save
  simp [hpk, hp]

theorem psave_bypass (pa : PlatformActionRec) (policyDb : List PolicyRec)
    (execPolicy : PolicyRec → List Event)
    (hpk : pa.pk = none)
    (hp : pa.initiator.has_perm ("policyengine.add_" ++ pa.action_codename) = true)
    (hx : pa.initiator.has_perm ("policyengine.can_execute_" ++ pa.action_codename) = true)
    (hb : pa.is_bundled = false) :
    pa.save policyDb execPolicy =
      (if pa.data == none then [Event.dataStoreCreate] else []) ++
      ([Event.proposalCreate Status.proposed] ++ PlatformActionRec.executeEvents) := by
  unfold PlatformActionRec.save
  simp [hpk, hp, hx, hb]

/-! ## Shape lemmas for the per-kind execute methods -/

theorem runCAction_ok_shape (k : CActionKind) (s s' : CommunityState) (evs : List Event)
    (h : runCAction k s = (s', evs, none)) :
    evs = [Event.effect, Event.proposalSetStatus Status.passed] ∨
    evs = [Event.proposalSetStatus Status.passed] := by
  cases k with
  | addCommunityDoc nm tx =>
    simp only [runCAction] at h
    injection h with h1 h2
    injection h2 with h2a h2b
    exact Or.inl h2a.symm
  | deleteCommunityDoc ref =>
    rcases ref with _ | r
    · simp only [runCAction] at h
      injection h with h1 h2
      injection h2 with h2a h2b
      exact absurd h2b.symm (by simp)
    · rcases hrp : r.pk with _ | n <;> simp only [runCAction, hrp] at h <;>
        injection h with h1 h2 <;> injection h2 with h2a h2b
      · exact absurd h2b.symm (by simp)
      · exact Or.inl h2a.symm
  | addRole nm desc perms =>
    simp only [runCAction] at h
    injection h with h1 h2
    injection h2 with h2a h2b
    exact Or.inl h2a.symm
  | deleteRole ref =>
    rcases ref with _ | r
    · simp only [runCAction] at h
      injection h with h1 h2
      injection h2 with h2a h2b
      exact absurd h2b.symm (by simp)
    · rcases hrp : r.pk with _ | n <;> simp only [runCAction, hrp] at h <;>
        injection h with h1 h2 <;> injection h2 with h2a h2b
      · exact Or.inr h2a.symm
      · exact Or.inl h2a.symm
  | removePlatformPolicy ref =>
    rcases ref with _ | r
    · simp only [runCAction] at h
      injection h with h1 h2
      injection h2 with h2a h2b
      exact absurd h2b.symm (by simp)
    · rcases hrp : r.pk with _ | n <;> simp only [runCAction, hrp] at h <;>
        injection h with h1 h2 <;> injection h2 with h2a h2b
      · exact absurd h2b.symm (by simp)
      · exact Or.inl h2a.symm
  | removeConstitutionPolicy ref =>
    rcases ref with _ | r
    · simp only [runCAction] at h
      injection h with h1 h2
      injection h2 with h2a h2b
      exact absurd h2b.symm (by simp)
    · rcases hrp : r.pk with _ | n <;> simp only [runCAction, hrp] at h <;>
        injection h with h1 h2 <;> injection h2 with h2a h2b
      · exact absurd h2b.symm (by simp)
      · exact Or.inl h2a.symm

theorem runCAction_err_shape (k : CActionKind) (s s' : CommunityState)
    (evs : List Event) (e : PyError)
    (h : runCAction k s = (s', evs, some e)) :
    evs = [] ∧ s' = s := by
  cases k with
  | addCommunityDoc nm tx =>
    simp only [runCAction] at h
    injection h with h1 h2
    injection h2 with h2a h2b
    exact absurd h2b (by simp)
  | deleteCommunityDoc ref =>
    rcases ref with _ | r
    · simp only [runCAction] at h
      injection h with h1 h2
      injection h2 with h2a h2b
      exact ⟨h2a.symm, h1.symm⟩
    · rcases hrp : r.pk with _ | n <;> simp only [runCAction, hrp] at h <;>
        injection h with h1 h2 <;> injection h2 with h2a h2b
      · exact ⟨h2a.symm, h1.symm⟩
      · exact absurd h2b (by simp)
  | addRole nm desc perms =>
    simp only [runCAction] at h
    injection h with h1 h2
    injection h2 with h2a h2b
    exact absurd h2b (by simp)
  | deleteRole ref =>
    rcases ref with _ | r
    · simp only [runCAction] at h
      injection h with h1 h2
      injection h2 with h2a h2b
      exact ⟨h2a.symm, h1.symm⟩
    · rcases hrp : r.pk with _ | n <;> simp only [runCAction, hrp] at h <;>
        injection h with h1 h2 <;> injection h2 with h2a h2b
      · exact absurd h2b (by simp)
      · exact absurd h2b (by simp)
  | removePlatformPolicy ref =>
    rcases ref with _ | r
    · simp only [runCAction] at h
      injection h with h1 h2
      injection h2 with h2a h2b
      exact ⟨h2a.symm, h1.symm⟩
    · rcases hrp : r.pk with _ | n <;> simp only [runCAction, hrp] at h <;>
        injection h with h1 h2 <;> injection h2 with h2a h2b
      · exact ⟨h2a.symm, h1.symm⟩
      · exact absurd h2b (by simp)
  | removeConstitutionPolicy ref =>
    rcases ref with _ | r
    · simp only [runCAction] at h
      injection h with h1 h2
      injection h2 with h2a h2b
      exact ⟨h2a.symm, h1.symm⟩
    · rcases hrp : r.pk with _ | n <;> simp only [runCAction, hrp] at h <;>
        injection h with h1 h2 <;> injection h2 with h2a h2b
      · exact ⟨h2a.symm, h1.symm⟩
      · exact absurd h2b (by simp)

theorem filter_length_map_keyfix (f : BooleanVote → BooleanVote)
    (hf : ∀ v, (f v).proposal = v.proposal ∧ (f v).user = v.user)
    (db : List BooleanVote) (p' : Nat) (u' : String) :
    ((db.map f).filter (fun v => v.proposal == p' && v.user == u')).length =
    (db.filter (fun v => v.proposal == p' && v.user == u')).length := by
  induction db with
  | nil => rfl
  | cons a t ih =>
    simp only [List.map_cons, List.filter_cons]
    have h1 : ((f a).proposal == p' && ((f a).user == u'))
        = (a.proposal == p' && (a.user == u')) := by
      rw [(hf a).1, (hf a).2]
    rw [h1]
    by_cases ha' : (a.proposal == p' && (a.user == u')) = true
    · rw [if_pos ha', if_pos ha']
      simp only [List.length_cons, ih]
    · rw [if_neg ha', if_neg ha']
      exact ih

theorem filter_length_map_replace (db : List BooleanVote) (p : Nat) (u : String)
    (value : Bool) (p' : Nat) (u' : String) :
    ((db.map (fun v =>
        if v.proposal == p && v.user == u
        then { v with boolean_value := some value } else v)).filter
      (fun v => v.proposal == p' && v.user == u')).length =
    (db.filter (fun v => v.proposal == p' && v.user == u')).length := by
  refine filter_length_map_keyfix _ ?_ db p' u'
  intro v
  by_cases hv : (v.proposal == p && v.user == u) = true
  · rw [if_pos hv]
    exact ⟨rfl, rfl⟩
  · rw [if_neg hv]
    exact ⟨rfl, rfl⟩

/-! ## Shape lemmas for bundle execution -/

theorem runCBundleActions_ok_passed (acts : List BundledCAction)
    (s s' : CommunityState) (acts' : List BundledCAction)
    (h : runCBundleActions acts s = (s', acts', none)) :
    ∀ x ∈ acts', x.proposal.status = Status.passed := by
  induction acts generalizing s s' acts' with
  | nil =>
    simp only [runCBundleActions] at h
    injection h with h1 h2
    injection h2 with h2a h2b
    intro x hx
    rw [← h2a] at hx
    exact absurd hx (List.not_mem_nil x)
  | cons a rest ih =>
    simp only [runCBundleActions] at h
    rcases hr : runCAction a.kind s with ⟨s1, evs, err⟩
    rw [hr] at h
    cases err with
    | some e =>
      injection h with h1 h2
      injection h2 with h2a h2b
      exact absurd h2b (by simp)
    | none =>
      dsimp only at h
      rcases hrec : runCBundleActions rest s1 with ⟨s2, rest2, err2⟩
      rw [hrec] at h
      dsimp only at h
      injection h with h1 h2
      injection h2 with h2a h2b
      rw [h2b] at hrec
      intro x hx
      rw [← h2a] at hx
      rcases List.mem_cons.mp hx with hx1 | hx2
      · rw [hx1]
        rfl
      · exact ih s1 s2 rest2 hrec x hx2

theorem pbundle_foldl_shape (l : List BundledPAction)
    (acc1 : List BundledPAction) (acc2 : List Event) :
    l.foldl
      (fun acc a =>
        (acc.1 ++ [{ a with proposal := PlatformActionBundle.pass_action a.proposal }],
         acc.2 ++ [Event.effect]))
      (acc1, acc2) =
    (acc1 ++ l.map (fun a => { a with proposal := PlatformActionBundle.pass_action a.proposal }),
     acc2 ++ l.map (fun _ => Event.effect)) := by
  induction l generalizing acc1 acc2 with
  | nil => simp
  | cons a t ih =>
    simp only [List.foldl_cons, List.map_cons]
    rw [ih]
    simp

/-! ## Claim theorems -/

/-- Claim C1: when the initiator lacks the `add_<codename>` (propose)
permission, both save flows create the Proposal directly in `failed`
status (the only proposal write is that creation), invoke no policy hook,
never call `execute_policy`, run no effect (the action's `execute` is not
called), mutate no community state, and raise nothing — for every policy
table and every behaviour of the policy engine. -/
theorem C1_propose_denied (a : ConstitutionActionRec) (pa : PlatformActionRec)
    (policyDb : List PolicyRec) (execPolicy : PolicyRec → List Event)
    (s : CommunityState)
    (hca : a.pk = none)
    (hcp : a.initiator.has_perm ("policyengine.add_" ++ a.action_codename) = false)
    (hpa : pa.pk = none)
    (hpp : pa.initiator.has_perm ("policyengine.add_" ++ pa.action_codename) = false) :
    ((a.save policyDb execPolicy s).2.1).filter Event.isProposalWrite =
      [Event.proposalCreate Status.failed] ∧
    quietTrace (a.save policyDb execPolicy s).2.1 = true ∧
    (a.save policyDb execPolicy s).1 = s ∧
    (a.save policyDb execPolicy s).2.2 = none ∧
    (pa.save policyDb execPolicy).filter Event.isProposalWrite =
      [Event.proposalCreate Status.failed] ∧
    quietTrace (pa.save policyDb execPolicy) = true := by
  have hpa' := psave_denied pa policyDb execPolicy hpa hpp
  by_cases hsc : a.shouldCreate = true
  · have hca' := csave_denied a policyDb execPolicy s hsc hcp
    rw [hca', hpa']
    by_cases hd : (a.data == none) = true <;>
      by_cases hpd : (pa.data == none) = true <;>
        simp [hd, hpd, quietTrace, Event.isProposalWrite, Event.isHook,
              Event.isEffect, Event.isPolicyEval]
  · have hsc' : a.shouldCreate = false := by
      cases h : a.shouldCreate with
      | true => exact absurd h hsc
      | false => rfl
    have hca' := csave_not_created a policyDb execPolicy s hsc' hca
    rw [hca', hpa']
    by_cases hpd : (pa.data == none) = true <;>
      simp [hpd, quietTrace, Event.isProposalWrite, Event.isHook,
            Event.isEffect, Event.isPolicyEval]

/-- Claim C1 witness: the theorem evaluated on the concrete denied
constitution and platform actions, with an empty policy table and the
trivial policy engine. -/
theorem C1_witness :
    ((deniedCA.save [] (fun _ => []) emptyCommunity).2.1).filter Event.isProposalWrite =
      [Event.proposalCreate Status.failed] ∧
    quietTrace (deniedCA.save [] (fun _ => []) emptyCommunity).2.1 = true ∧
    (deniedCA.save [] (fun _ => []) emptyCommunity).1 = emptyCommunity ∧
    (deniedCA.save [] (fun _ => []) emptyCommunity).2.2 = none ∧
    (deniedPA.save [] (fun _ => [])).filter Event.isProposalWrite =
      [Event.proposalCreate Status.failed] ∧
    quietTrace (deniedPA.save [] (fun _ => [])) = true :=
  C1_propose_denied deniedCA deniedPA [] (fun _ => []) emptyCommunity
    rfl rfl rfl rfl

/-- Claim C2 counterexample: a fresh delete-document constitution action
whose document reference is already `SET_NULL`-ed, initiated by a holder
of both the propose and the bypass permission and not bundled.  The save
reaches `execute()`, which raises `AttributeError`; the Proposal remains
`proposed` (never `passed`) and the real effect runs zero times, refuting
the claim as stated. -/
theorem C2_counterexample :
    bypassDeleteDocCA.initiator.has_perm
      ("policyengine.add_" ++ bypassDeleteDocCA.action_codename) = true ∧
    bypassDeleteDocCA.initiator.has_perm
      ("policyengine.can_execute_" ++ bypassDeleteDocCA.action_codename) = true ∧
    bypassDeleteDocCA.is_bundled = false ∧
    bypassDeleteDocCA.save [] (fun _ => []) emptyCommunity =
      (emptyCommunity,
       [Event.dataStoreCreate, Event.proposalCreate Status.proposed],
       some PyError.attributeError) ∧
    finalStatus (bypassDeleteDocCA.save [] (fun _ => []) emptyCommunity).2.1 =
      some Status.proposed ∧
    effectCount (bypassDeleteDocCA.save [] (fun _ => []) emptyCommunity).2.1 = 0 := by
  refine ⟨rfl, rfl, rfl, rfl, rfl, rfl⟩

/-- Claim C2 as amended: with both the propose and the bypass permission
and `is_bundled` false, the save invokes no policy hook and never enters
the policy engine, and calls the action's `execute` directly.  For a
platform action the Proposal then ends `passed` and the real effect runs
exactly once.  For a constitution action whose `execute` completes
without error the Proposal ends `passed` and the real effect runs at most
once (exactly once except for the benign no-op delete of an
already-deleted role); when `execute` raises (e.g. delete-document with
an absent referent) the Proposal remains `proposed` and no effect ran. -/
theorem C2_execute_bypass (pa : PlatformActionRec) (a : ConstitutionActionRec)
    (policyDb : List PolicyRec) (execPolicy : PolicyRec → List Event)
    (s : CommunityState)
    (hp1 : pa.pk = none)
    (hp2 : pa.initiator.has_perm ("policyengine.add_" ++ pa.action_codename) = true)
    (hp3 : pa.initiator.has_perm ("policyengine.can_execute_" ++ pa.action_codename) = true)
    (hp4 : pa.is_bundled = false)
    (hc1 : a.shouldCreate = true)
    (hc2 : a.initiator.has_perm ("policyengine.add_" ++ a.action_codename) = true)
    (hc3 : a.initiator.has_perm ("policyengine.can_execute_" ++ a.action_codename) = true)
    (hc4 : a.is_bundled = false) :
    finalStatus (pa.save policyDb execPolicy) = some Status.passed ∧
    effectCount (pa.save policyDb execPolicy) = 1 ∧
    noPolicyTrace (pa.save policyDb execPolicy) = true ∧
    noPolicyTrace (a.save policyDb execPolicy s).2.1 = true ∧
    ((a.save policyDb execPolicy s).2.2 = none →
      finalStatus (a.save policyDb execPolicy s).2.1 = some Status.passed ∧
      effectCount (a.save policyDb execPolicy s).2.1 ≤ 1) ∧
    ((a.save policyDb execPolicy s).2.2 ≠ none →
      finalStatus (a.save policyDb execPolicy s).2.1 = some Status.proposed ∧
      effectCount (a.save policyDb execPolicy s).2.1 = 0) := by
  have hps := psave_bypass pa policyDb execPolicy hp1 hp2 hp3 hp4
  have hcs := csave_bypass a policyDb execPolicy s hc1 hc2 hc3 hc4
  rcases hr : runCAction a.kind s with ⟨s1, evs, err⟩
  rw [hr] at hcs
  refine ⟨?_, ?_, ?_, ?_, ?_, ?_⟩
  · rw [hps]
    by_cases hpd : (pa.data == none) = true <;>
      simp [hpd, finalStatus, PlatformActionRec.executeEvents]
  · rw [hps]
    by_cases hpd : (pa.data == none) = true <;>
      simp [hpd, effectCount, PlatformActionRec.executeEvents,
            Event.isEffect, List.filter]
  · rw [hps]
    by_cases hpd : (pa.data == none) = true <;>
      simp [hpd, noPolicyTrace, PlatformActionRec.executeEvents,
            Event.isHook, Event.isPolicyEval]
  · rw [hcs]
    cases err with
    | none =>
      rcases runCAction_ok_shape a.kind s s1 evs hr with hsh | hsh <;>
        subst hsh <;>
        by_cases hd : (a.data == none) = true <;>
          by_cases hhp : a.hasProposal = true <;>
            simp [hd, hhp, noPolicyTrace, Event.isHook, Event.isPolicyEval]
    | some e =>
      obtain ⟨hsh, -⟩ := runCAction_err_shape a.kind s s1 evs e hr
      subst hsh
      by_cases hd : (a.data == none) = true <;>
        by_cases hhp : a.hasProposal = true <;>
          simp [hd, hhp, noPolicyTrace, Event.isHook, Event.isPolicyEval]
  · intro hok
    rw [hcs] at hok ⊢
    simp only at hok
    cases err with
    | none =>
      rcases runCAction_ok_shape a.kind s s1 evs hr with hsh | hsh <;>
        subst hsh <;>
        by_cases hd : (a.data == none) = true <;>
          by_cases hhp : a.hasProposal = true <;>
            simp [hd, hhp, finalStatus, effectCount, Event.isEffect, List.filter]
    | some e => exact absurd hok (by simp)
  · intro herr
    rw [hcs] at herr ⊢
    simp only at herr
    cases err with
    | none => exact absurd rfl herr
    | some e =>
      obtain ⟨hsh, -⟩ := runCAction_err_shape a.kind s s1 evs e hr
      subst hsh
      by_cases hd : (a.data == none) = true <;>
        by_cases hhp : a.hasProposal = true <;>
          simp [hd, hhp, finalStatus, effectCount, Event.isEffect, List.filter]

/-- Claim C2 witness: the theorem evaluated on the concrete bypass
platform action and the concrete bypass add-role constitution action
(whose `execute` completes without error), with the inner hypothesis
discharged by evaluation. -/
theorem C2_witness :
    finalStatus (bypassPA.save [] (fun _ => [])) = some Status.passed ∧
    effectCount (bypassPA.save [] (fun _ => [])) = 1 ∧
    noPolicyTrace (bypassPA.save [] (fun _ => [])) = true ∧
    noPolicyTrace (bypassAddRoleCA.save [] (fun _ => []) emptyCommunity).2.1 = true ∧
    finalStatus (bypassAddRoleCA.save [] (fun _ => []) emptyCommunity).2.1 =
      some Status.passed ∧
    effectCount (bypassAddRoleCA.save [] (fun _ => []) emptyCommunity).2.1 ≤ 1 := by
  have h := C2_execute_bypass bypassPA bypassAddRoleCA [] (fun _ => []) emptyCommunity
    rfl rfl rfl rfl rfl rfl rfl rfl
  exact ⟨h.1, h.2.1, h.2.2.1, h.2.2.2.1,
         (h.2.2.2.2.1 rfl).1, (h.2.2.2.2.1 rfl).2⟩

/-- Claim C4 counterexample: a denied constitution action (no propose
permission) with no DataStore yet — the save still creates a DataStore
(`Event.dataStoreCreate` is performed) before the permission check, so
the DataStore is initialized for the denied Action. -/
theorem C4_counterexample :
    deniedCA.initiator.has_perm
      ("policyengine.add_" ++ deniedCA.action_codename) = false ∧
    deniedCA.save [] (fun _ => []) emptyCommunity =
      (emptyCommunity,
       [Event.dataStoreCreate, Event.proposalCreate Status.failed], none) := by
  refine ⟨rfl, rfl⟩

/-- Claim C4 as amended: both save flows create a DataStore for any new
action that has none — before the permission gate — so a DataStore is
created even when the initiator lacks the propose permission. -/
theorem C4_datastore_created (a : ConstitutionActionRec) (pa : PlatformActionRec)
    (policyDb : List PolicyRec) (execPolicy : PolicyRec → List Event)
    (s : CommunityState)
    (ha : a.shouldCreate = true) (hda : a.data = none)
    (hpa : pa.pk = none) (hdpa : pa.data = none) :
    Event.dataStoreCreate ∈ (a.save policyDb execPolicy s).2.1 ∧
    Event.dataStoreCreate ∈ pa.save policyDb execPolicy := by
  constructor
  · by_cases hp : a.initiator.has_perm ("policyengine.add_" ++ a.action_codename) = true
    · by_cases hb : a.is_bundled = true
      · rw [csave_bundled a policyDb execPolicy s ha hp hb]
        simp [hda]
      · have hb' : a.is_bundled = false := by
          cases h : a.is_bundled with
          | true => exact absurd h hb
          | false => rfl
        by_cases hx : a.initiator.has_perm
            ("policyengine.can_execute_" ++ a.action_codename) = true
        · rw [csave_bypass a policyDb execPolicy s ha hp hx hb']
          simp [hda]
        · have hx' : a.initiator.has_perm
              ("policyengine.can_execute_" ++ a.action_codename) = false := by
            cases h : a.initiator.has_perm
                ("policyengine.can_execute_" ++ a.action_codename) with
            | true => exact absurd h hx
            | false => rfl
          rw [csave_review a policyDb execPolicy s ha hp hx' hb']
          simp [hda]
    · have hp' : a.initiator.has_perm
          ("policyengine.add_" ++ a.action_codename) = false := by
        cases h : a.initiator.has_perm ("policyengine.add_" ++ a.action_codename) with
        | true => exact absurd h hp
        | false => rfl
      rw [csave_denied a policyDb execPolicy s ha hp']
      simp [hda]
  · unfold PlatformActionRec.save
    simp only [hpa, hdpa]
    by_cases hp : pa.initiator.has_perm ("policyengine.add_" ++ pa.action_codename) = true <;>
      by_cases hb : pa.is_bundled = true <;>
        by_cases hx : pa.initiator.has_perm
            ("policyengine.can_execute_" ++ pa.action_codename) = true <;>
          simp [hp, hb, hx]

/-- Claim C4 witness: the theorem evaluated on the concrete denied
constitution and platform actions (each with `data = none`). -/
theorem C4_witness :
    Event.dataStoreCreate ∈ (deniedCA.save [] (fun _ => []) emptyCommunity).2.1 ∧
    Event.dataStoreCreate ∈ deniedPA.save [] (fun _ => []) :=
  C4_datastore_created deniedCA deniedPA [] (fun _ => []) emptyCommunity
    rfl rfl rfl rfl

/-- Claim C3 counterexample: the model layer has no terminal-state guard.
`examplePassedProposal` is terminal (`passed`), yet `fail_action` — a
model-layer operation named by the claim — changes its status to
`failed`. -/
theorem C3_counterexample :
    examplePassedProposal.status = Status.passed ∧
    (ConstitutionAction.fail_action examplePassedProposal).status = Status.failed ∧
    (ConstitutionAction.fail_action examplePassedProposal).status ≠
      examplePassedProposal.status := by
  refine ⟨rfl, rfl, ?_⟩
  intro h
  exact Status.noConfusion h

/-- Claim C3 as amended: every `pass_action` variant unconditionally sets
the owned proposal's status to `passed` and every `fail_action` variant
unconditionally sets it to `failed`, regardless of the current status —
the model layer itself enforces no terminal-state monotonicity. -/
theorem C3_status_overwritten (p : Proposal) :
    (ConstitutionAction.pass_action p).status = Status.passed ∧
    (ConstitutionAction.fail_action p).status = Status.failed ∧
    (PlatformAction.pass_action p).status = Status.passed ∧
    (PlatformAction.fail_action p).status = Status.failed ∧
    (ConstitutionActionBundle.pass_action p).status = Status.passed ∧
    (ConstitutionActionBundle.fail_action p).status = Status.failed ∧
    (PlatformActionBundle.pass_action p).status = Status.passed ∧
    (PlatformActionBundle.fail_action p).status = Status.failed :=
  ⟨rfl, rfl, rfl, rfl, rfl, rfl, rfl, rfl⟩

/-- Claim C5 counterexample: `PolicykitDeleteCommunityDoc.execute` on an
action whose document reference is already absent (`SET_NULL`-ed) raises
`AttributeError` instead of completing as a benign no-op, and the
proposal is not marked `passed` (no event at all is performed). -/
theorem C5_counterexample :
    runCAction (CActionKind.deleteCommunityDoc none) emptyCommunity =
      (emptyCommunity, [], some PyError.attributeError) := rfl

/-- Claim C5 as amended: only `PolicykitDeleteRole.execute` treats an
already-deleted entity benignly, and only for a stale in-memory reference
(row gone, `pk = None`): the caught `AssertionError` makes it a no-op that
still marks the proposal `passed`.  A `SET_NULL`-ed reference raises
`AttributeError` even there, and the delete-document and the two
remove-policy kinds raise (`AttributeError` on a nulled reference,
`AssertionError` on a stale one) without reaching `pass_action`. -/
theorem C5_absent_entity (s : CommunityState) :
    runCAction (CActionKind.deleteRole (some ⟨none⟩)) s =
      (s, [Event.proposalSetStatus Status.passed], none) ∧
    runCAction (CActionKind.deleteRole none) s = (s, [], some PyError.attributeError) ∧
    runCAction (CActionKind.deleteCommunityDoc none) s =
      (s, [], some PyError.attributeError) ∧
    runCAction (CActionKind.deleteCommunityDoc (some ⟨none⟩)) s =
      (s, [], some PyError.assertionError) ∧
    runCAction (CActionKind.removePlatformPolicy none) s =
      (s, [], some PyError.attributeError) ∧
    runCAction (CActionKind.removePlatformPolicy (some ⟨none⟩)) s =
      (s, [], some PyError.assertionError) ∧
    runCAction (CActionKind.removeConstitutionPolicy none) s =
      (s, [], some PyError.attributeError) ∧
    runCAction (CActionKind.removeConstitutionPolicy (some ⟨none⟩)) s =
      (s, [], some PyError.assertionError) :=
  ⟨rfl, rfl, rfl, rfl, rfl, rfl, rfl, rfl⟩

/-- Claim C9: `DataStore.get/set/remove` behave as a key-value map —
`get` after `set k v` returns `v`; a key that is absent (never set) or
just removed reads as `None`; `set` and `remove` on `k` leave every other
key unchanged. -/
theorem C9_datastore_ops (s : DataStore) (k k' : String) (v : JValue)
    (hne : k' ≠ k) :
    ((s.set k v).1).get k = v ∧
    (s.hasKey k = false → s.get k = JValue.null) ∧
    ((s.remove k).1).get k = JValue.null ∧
    ((s.set k v).1).get k' = s.get k' ∧
    ((s.remove k).1).get k' = s.get k' := by
  refine ⟨?_, ?_, ?_, ?_, ?_⟩
  · unfold DataStore.set DataStore.get DataStore.hasKey
    by_cases h : s.store.any (fun p => p.1 == k) = true
    · simp only [h, if_pos]
      rw [find?_map_put s.store k v h]
    · have h' : s.store.any (fun p => p.1 == k) = false := by
        cases hh : s.store.any (fun p => p.1 == k) with
        | true => exact absurd hh h
        | false => rfl
      simp only [h', Bool.false_eq_true, ite_false]
      rw [find?_append_new s.store k v h']
  · intro h
    unfold DataStore.get
    rw [find?_none_of_any_false s.store k h]
  · unfold DataStore.remove DataStore.get dictPop
    cases hf : s.store.find? (fun p => p.1 == k) with
    | none => simp only [hf]
              rw [find?_filter_removed s.store k]
    | some q => simp only [hf]
                rw [find?_filter_removed s.store k]
  · unfold DataStore.set DataStore.get
    by_cases h : s.store.any (fun p => p.1 == k) = true
    · unfold DataStore.hasKey
      simp only [h, if_pos]
      rw [find?_map_put_frame s.store k k' v hne]
    · have h' : s.store.any (fun p => p.1 == k) = false := by
        cases hh : s.store.any (fun p => p.1 == k) with
        | true => exact absurd hh h
        | false => rfl
      unfold DataStore.hasKey
      simp only [h', Bool.false_eq_true, ite_false]
      rw [List.find?_append]
      have : ([(k, v)].find? (fun p => p.1 == k')) = none := by
        simp only [List.find?]
        have : (k == k') = false := beq_eq_false_iff_ne.mpr (fun hkk => hne hkk.symm)
        simp [this]
      cases hg : s.store.find? (fun p => p.1 == k') with
      | none => simp [hg, this]
      | some q => simp [hg]
  · unfold DataStore.remove DataStore.get dictPop
    cases hf : s.store.find? (fun p => p.1 == k) with
    | none => simp only [hf]
              rw [find?_filter_frame s.store k k' hne]
    | some q => simp only [hf]
                rw [find?_filter_frame s.store k k' hne]

/-- Claim C9 witness: the theorem evaluated on `exampleStore` with the
fresh key `"missing"` and the unrelated key `"label"`. -/
theorem C9_witness :
    ((exampleStore.set "missing" (JValue.num 7)).1).get "missing" = JValue.num 7 ∧
    exampleStore.get "missing" = JValue.null ∧
    ((exampleStore.remove "missing").1).get "missing" = JValue.null ∧
    ((exampleStore.set "missing" (JValue.num 7)).1).get "label" = exampleStore.get "label" ∧
    ((exampleStore.remove "missing").1).get "label" = exampleStore.get "label" := by
  have h := C9_datastore_ops exampleStore "missing" "label" (JValue.num 7) (by decide)
  exact ⟨h.1, h.2.1 rfl, h.2.2.1, h.2.2.2.1, h.2.2.2.2⟩

/-- Claim C10: `DataStore.remove k` always deletes `k` from the store,
and its return value is exactly the Python truthiness of the value that
was stored under `k` (`None` for an absent key) — so a falsy stored value
or an absent key yields `False` even though the key is gone. -/
theorem C10_remove_returns_truthy (s : DataStore) (k : String) :
    ((s.remove k).1).hasKey k = false ∧
    (s.remove k).2 = (s.get k).truthy := by
  constructor
  · unfold DataStore.remove DataStore.hasKey dictPop
    cases hf : s.store.find? (fun p => p.1 == k) with
    | none =>
      simp only [hf]
      cases hh : (s.store.filter (fun q => q.1 != k)).any (fun p => p.1 == k) with
      | false => rfl
      | true =>
        exfalso
        rcases List.any_eq_true.mp hh with ⟨x, hx, hpx⟩
        have hmem := List.mem_filter.mp hx
        simp only [bne_iff_ne, ne_eq] at hmem
        exact hmem.2 (beq_iff_eq.mp hpx)
    | some q =>
      simp only [hf]
      cases hh : (s.store.filter (fun q => q.1 != k)).any (fun p => p.1 == k) with
      | false => rfl
      | true =>
        exfalso
        rcases List.any_eq_true.mp hh with ⟨x, hx, hpx⟩
        have hmem := List.mem_filter.mp hx
        simp only [bne_iff_ne, ne_eq] at hmem
        exact hmem.2 (beq_iff_eq.mp hpx)
  · unfold DataStore.remove DataStore.get dictPop
    cases hf : s.store.find? (fun p => p.1 == k) with
    | none =>
      simp only [hf]
      cases JValue.truthy JValue.null with
      | false => rfl
      | true => rfl
    | some q =>
      simp only [hf]
      cases hq : q.2.truthy <;> simp [hq]

/-- Claim C6 counterexample: a plain bundle containing one delete-document
action with an absent (SET_NULL-ed) document.  `execute` raises
`AttributeError` from the contained `execute()`, runs no effect, and the
contained Proposal stays `proposed` — refuting "sets every contained
Action's Proposal status to passed". -/
theorem C6_counterexample :
    badBundle.bundle_type = BundleType.bundle ∧
    badBundle.execute emptyCommunity =
      (emptyCommunity, badBundle.bundled_actions, some PyError.attributeError) ∧
    badBundle.bundled_actions.map (fun x => x.proposal.status) = [Status.proposed] :=
  ⟨rfl, rfl, rfl⟩

/-- Claim C6 as amended: an `election` bundle's `execute` is a no-op
(state, contained actions and proposals unchanged) for both bundle
families.  A plain (`bundle`-kind) platform bundle runs one adapter
effect per contained action and marks each contained Proposal `passed`.
A plain constitution bundle does the same provided every contained
`execute` completes without error: whenever its `execute` returns without
an exception, every contained Proposal ends `passed`; a raising contained
`execute` (e.g. delete-document with an absent referent) aborts the loop
with the remaining proposals unchanged. -/
theorem C6_bundle_execute (b : CActionBundle) (pb : PActionBundle)
    (s s' : CommunityState) (acts' : List BundledCAction) :
    (b.bundle_type = BundleType.election →
      b.execute s = (s, b.bundled_actions, none)) ∧
    (b.bundle_type = BundleType.bundle →
      b.execute s = (s', acts', none) →
      ∀ x ∈ acts', x.proposal.status = Status.passed) ∧
    (pb.bundle_type = BundleType.election →
      pb.execute = (pb.bundled_actions, [])) ∧
    (pb.bundle_type = BundleType.bundle →
      pb.execute =
        (pb.bundled_actions.map
          (fun x => { x with proposal := PlatformActionBundle.pass_action x.proposal }),
         pb.bundled_actions.map (fun _ => Event.effect))) := by
  refine ⟨?_, ?_, ?_, ?_⟩
  · intro he
    unfold CActionBundle.execute
    rw [he]
  · intro hb hexec
    unfold CActionBundle.execute at hexec
    rw [hb] at hexec
    exact runCBundleActions_ok_passed b.bundled_actions s s' acts' hexec
  · intro he
    unfold PActionBundle.execute
    rw [he]
  · intro hb
    unfold PActionBundle.execute
    rw [hb]
    rw [pbundle_foldl_shape pb.bundled_actions [] []]
    simp

/-- Claim C6 witness: the theorem evaluated on a concrete election bundle,
a concrete plain platform bundle of two actions, a concrete election
platform bundle, and the spec's three-add-role plain bundle (whose
execution yields all three roles and three `passed` proposals, shown by
evaluation). -/
theorem C6_witness :
    electionBundle.execute emptyCommunity =
      (emptyCommunity, electionBundle.bundled_actions, none) ∧
    platformElection.execute = (platformElection.bundled_actions, []) ∧
    platformBundle.execute =
      (platformBundle.bundled_actions.map
        (fun x => { x with proposal := PlatformActionBundle.pass_action x.proposal }),
       platformBundle.bundled_actions.map (fun _ => Event.effect)) ∧
    (threeRoleBundle.execute emptyCommunity).2.2 = none ∧
    (threeRoleBundle.execute emptyCommunity).2.1.map (fun x => x.proposal.status) =
      [Status.passed, Status.passed, Status.passed] ∧
    (threeRoleBundle.execute emptyCommunity).1.roles.map (fun r => r.role_name) =
      ["mod", "editor", "greeter"] := by
  have h1 := C6_bundle_execute electionBundle platformElection
    emptyCommunity emptyCommunity []
  have h2 := C6_bundle_execute threeRoleBundle platformBundle
    emptyCommunity (threeRoleBundle.execute emptyCommunity).1
    (threeRoleBundle.execute emptyCommunity).2.1
  have hall := h2.2.1 rfl rfl
  refine ⟨h1.1 rfl, h1.2.2.1 rfl, h2.2.2.2 rfl, rfl, ?_, rfl⟩
  have hm := hall
  rfl

/-- Claim C7 (spec-modelled `castVote`): casting a vote leaves the member
with exactly one vote on the proposal (given the at-most-one invariant
beforehand), leaves every other (proposal, member) pair's votes
untouched, and the member's vote on that proposal now carries the newly
cast value. -/
theorem C7_one_vote_per_member (db : List BooleanVote) (p : Nat) (u : String)
    (value : Bool) (h : voteCount db p u ≤ 1) :
    voteCount (castVote db p u value) p u = 1 ∧
    (∀ p' u', ¬(p' = p ∧ u' = u) →
      voteCount (castVote db p u value) p' u' = voteCount db p' u') ∧
    (∀ v ∈ castVote db p u value, v.proposal = p → v.user = u →
      v.boolean_value = some value) := by
  by_cases hany : (db.any (fun v => v.proposal == p && v.user == u)) = true
  · have hge : 1 ≤ voteCount db p u := by
      rcases List.any_eq_true.mp hany with ⟨x, hx, hpx⟩
      have hmem : x ∈ db.filter (fun v => v.proposal == p && v.user == u) :=
        List.mem_filter.mpr ⟨hx, hpx⟩
      have := List.length_pos.mpr (List.ne_nil_of_mem hmem)
      exact this
    have hone : voteCount db p u = 1 := Nat.le_antisymm h hge
    refine ⟨?_, ?_, ?_⟩
    · unfold castVote
      rw [if_pos hany]
      unfold voteCount at hone ⊢
      rw [filter_length_map_replace db p u value p u]
      exact hone
    · intro p' u' hne
      unfold castVote
      rw [if_pos hany]
      unfold voteCount
      rw [filter_length_map_replace db p u value p' u']
    · intro v hv hvp hvu
      unfold castVote at hv
      rw [if_pos hany] at hv
      rcases List.mem_map.mp hv with ⟨w, hw, hfw⟩
      by_cases hpw : (w.proposal == p && w.user == u) = true
      · rw [if_pos hpw] at hfw
        rw [← hfw]
      · rw [if_neg hpw] at hfw
        subst hfw
        exact absurd (by simp [hvp, hvu]) hpw
  · have hany' : (db.any (fun v => v.proposal == p && v.user == u)) = false := by
      cases hh : db.any (fun v => v.proposal == p && v.user == u) with
      | true => exact absurd hh hany
      | false => rfl
    have hzero : db.filter (fun v => v.proposal == p && v.user == u) = [] := by
      refine List.filter_eq_nil_iff.mpr ?_
      intro x hx
      exact (List.any_eq_false.mp hany') x hx
    refine ⟨?_, ?_, ?_⟩
    · unfold castVote
      rw [if_neg (by rw [hany']; exact Bool.false_ne_true)]
      unfold voteCount
      rw [List.filter_append, hzero]
      simp
    · intro p' u' hne
      unfold castVote
      rw [if_neg (by rw [hany']; exact Bool.false_ne_true)]
      unfold voteCount
      rw [List.filter_append]
      have hnewpred :
          ((p : Nat) == p' && ((u : String) == u')) = false := by
        by_cases hpp : p' = p
        · by_cases huu : u' = u
          · exact absurd ⟨hpp, huu⟩ hne
          · have hb : ((u : String) == u') = false :=
              beq_eq_false_iff_ne.mpr (fun e => huu e.symm)
            simp [hb]
        · have hb : ((p : Nat) == p') = false :=
            beq_eq_false_iff_ne.mpr (fun e => hpp e.symm)
          simp [hb]
      simp [List.filter, hnewpred]
    · intro v hv hvp hvu
      unfold castVote at hv
      rw [if_neg (by rw [hany']; exact Bool.false_ne_true)] at hv
      rcases List.mem_append.mp hv with hv1 | hv2
      · exfalso
        have := (List.any_eq_false.mp hany') v hv1
        exact this (by simp [hvp, hvu])
      · rcases List.mem_singleton.mp hv2 with h'
        rw [h']

/-- Claim C7 witness: the theorem evaluated on two concrete votes;
"alice" re-votes `false` on proposal 0: she still holds exactly one vote
there and "bob"'s tally is untouched. -/
theorem C7_witness :
    voteCount (castVote c7db 0 "alice" false) 0 "alice" = 1 ∧
    voteCount (castVote c7db 0 "alice" false) 0 "bob" = voteCount c7db 0 "bob" := by
  have h := C7_one_vote_per_member c7db 0 "alice" false (by decide)
  exact ⟨h.1, h.2.1 0 "bob" (by decide)⟩

/-- Claim C8 counterexample: passing the empty member set as the filter
does not restrict the tally — Python's `if users:` treats `[]` as
falsy, so `get_all_boolean_votes` returns every vote on the proposal
even though no caster belongs to the empty set. -/
theorem C8_counterexample :
    c8prop.get_all_boolean_votes c8db (some []) = c8db ∧ c8db ≠ [] := by
  refine ⟨rfl, by decide⟩

/-- Claim C8 as amended: for every nonempty member set `us` passed as the
filter, each tally query returns exactly the votes on the proposal whose
caster belongs to `us` (with the query's own value restriction); when the
empty set is passed, the member filter is silently ignored, identically
to passing no filter. -/
theorem C8_tally_scoped (pr : Proposal) (db : List BooleanVote)
    (ndb : List NumberVote) (us : List String) (value : Int)
    (v : BooleanVote) (w : NumberVote) (h : us ≠ []) :
    (v ∈ pr.get_all_boolean_votes db (some us) ↔
      v ∈ db ∧ v.proposal = pr.pk ∧ v.user ∈ us) ∧
    (v ∈ pr.get_yes_votes db (some us) ↔
      v ∈ db ∧ v.boolean_value = some true ∧ v.proposal = pr.pk ∧ v.user ∈ us) ∧
    (v ∈ pr.get_no_votes db (some us) ↔
      v ∈ db ∧ v.boolean_value = some false ∧ v.proposal = pr.pk ∧ v.user ∈ us) ∧
    (w ∈ pr.get_all_number_votes ndb (some us) ↔
      w ∈ ndb ∧ w.proposal = pr.pk ∧ w.user ∈ us) ∧
    (w ∈ pr.get_one_number_votes ndb value (some us) ↔
      w ∈ ndb ∧ w.number_value = some value ∧ w.proposal = pr.pk ∧ w.user ∈ us) ∧
    pr.get_all_boolean_votes db (some []) = pr.get_all_boolean_votes db none ∧
    pr.get_yes_votes db (some []) = pr.get_yes_votes db none ∧
    pr.get_no_votes db (some []) = pr.get_no_votes db none ∧
    pr.get_all_number_votes ndb (some []) = pr.get_all_number_votes ndb none ∧
    pr.get_one_number_votes ndb value (some []) =
      pr.get_one_number_votes ndb value none := by
  have hus : us.isEmpty = false := by
    cases us with
    | nil => exact absurd rfl h
    | cons a t => rfl
  refine ⟨?_, ?_, ?_, ?_, ?_, rfl, rfl, rfl, rfl, rfl⟩
  · unfold Proposal.get_all_boolean_votes
    dsimp only
    simp only [hus, Bool.not_false, eq_self_iff_true, if_true, List.mem_filter,
               Bool.and_eq_true, beq_iff_eq]
    constructor
    · rintro ⟨h1, h2, h3⟩
      exact ⟨h1, h2, List.elem_iff.mp h3⟩
    · rintro ⟨h1, h2, h3⟩
      exact ⟨h1, h2, List.elem_iff.mpr h3⟩
  · unfold Proposal.get_yes_votes
    dsimp only
    simp only [hus, Bool.not_false, eq_self_iff_true, if_true, List.mem_filter,
               Bool.and_eq_true, beq_iff_eq]
    constructor
    · rintro ⟨h1, ⟨h2, h3⟩, h4⟩
      exact ⟨h1, h2, h3, List.elem_iff.mp h4⟩
    · rintro ⟨h1, h2, h3, h4⟩
      exact ⟨h1, ⟨h2, h3⟩, List.elem_iff.mpr h4⟩
  · unfold Proposal.get_no_votes
    dsimp only
    simp only [hus, Bool.not_false, eq_self_iff_true, if_true, List.mem_filter,
               Bool.and_eq_true, beq_iff_eq]
    constructor
    · rintro ⟨h1, ⟨h2, h3⟩, h4⟩
      exact ⟨h1, h2, h3, List.elem_iff.mp h4⟩
    · rintro ⟨h1, h2, h3, h4⟩
      exact ⟨h1, ⟨h2, h3⟩, List.elem_iff.mpr h4⟩
  · unfold Proposal.get_all_number_votes
    dsimp only
    simp only [hus, Bool.not_false, eq_self_iff_true, if_true, List.mem_filter,
               Bool.and_eq_true, beq_iff_eq]
    constructor
    · rintro ⟨h1, h2, h3⟩
      exact ⟨h1, h2, List.elem_iff.mp h3⟩
    · rintro ⟨h1, h2, h3⟩
      exact ⟨h1, h2, List.elem_iff.mpr h3⟩
  · unfold Proposal.get_one_number_votes
    dsimp only
    simp only [hus, Bool.not_false, eq_self_iff_true, if_true, List.mem_filter,
               Bool.and_eq_true, beq_iff_eq]
    constructor
    · rintro ⟨h1, ⟨h2, h3⟩, h4⟩
      exact ⟨h1, h2, h3, List.elem_iff.mp h4⟩
    · rintro ⟨h1, h2, h3, h4⟩
      exact ⟨h1, ⟨h2, h3⟩, List.elem_iff.mpr h4⟩

/-- Claim C8 witness: the theorem evaluated on a concrete vote table with
the nonempty filter `["alice"]`. -/
theorem C8_witness :
    c8v ∈ c8prop.get_all_boolean_votes c8db (some ["alice"]) ↔
      c8v ∈ c8db ∧ c8v.proposal = c8prop.pk ∧ c8v.user ∈ ["alice"] :=
  (C8_tally_scoped c8prop c8db c8ndb ["alice"] 5 c8v c8w (by decide)).1

end PolicyKit
